import Mathlib

/-
Verification of the legion dispatcher core of the amethyst repository
(src/amethyst_core/src/legion/dispatcher.rs).

Shallow embedding conventions:
  * Parallel tasks and thread-local tasks are opaque to the scheduler; we model
    each task as a `Nat` label (tasks have no identity beyond position).
  * The world is only queried for the thread-pool resource
    (`world.resources.get::<ArcThreadPool>()`), so we model it by a single flag.
  * Rust code that can panic (an `unwrap`) or return an `Err` is modelled in
    `Option` / `Except`: `none` / `.error` is abnormal termination, carrying the
    propagated error value where the source carries one.
  * `HashMap<Stage, Vec<_>>` is modelled as the total function
    `Stage → Option (List Nat)`; `none` means the key is absent from the map.
    The per-key semantics of the source (insert, lookup, per-key extend) is
    order-independent, so nothing of the HashMap's arbitrary iteration order is
    lost by this representation.
  * `DispatcherBuilder::build` recurses on a builder produced at run time and
    the source puts no bound on that recursion, so `build` takes a fuel
    parameter; exhausted fuel is the distinguished outcome `AError.outOfFuel`.
-/

namespace AmethystLegion

/-- Stage enumeration from the source:
`enum Stage { Begin, Logic, Render, ThreadLocal }`. -/
inductive Stage where
  | Begin
  | Logic
  | Render
  | ThreadLocal
deriving DecidableEq

/-- The world, reduced to the only capability this core consumes from it:
whether the `ArcThreadPool` resource is present in `world.resources`. -/
structure World where
  hasThreadPool : Bool
deriving DecidableEq

/-- Abnormal outcomes of the dispatcher core.  `user n` is an
`amethyst_error::Error` value produced by a descriptor (abstracted to a code);
`mergePanic` is the `unwrap` panic inside `Dispatcher::merge`; `outOfFuel`
models the unbounded recursion of `DispatcherBuilder::build`. -/
inductive AError where
  | user (code : Nat)
  | mergePanic
  | outOfFuel
deriving DecidableEq

/-- An observable execution event of `Dispatcher::run`: a thread-local task run
sequentially, or a parallel task handed to the external stage executor. -/
inductive Event where
  | loc (task : Nat)
  | par (task : Nat)
deriving DecidableEq

/-- The realized schedule, from the source:
`pub struct Dispatcher { thread_locals: Vec<Box<dyn ThreadLocal>>,
stages: HashMap<Stage, Vec<Box<dyn Schedulable>>> }`. -/
structure Dispatcher where
  thread_locals : List Nat
  stages : Stage → Option (List Nat)

/-- `Dispatcher::default`: no thread-locals, and the stages map populated with
exactly the three parallel keys Begin, Logic, Render, each empty. -/
def Dispatcher.default : Dispatcher where
  thread_locals := []
  stages := fun s =>
    match s with
    | Stage.ThreadLocal => none
    | _ => some []

/-- Modelled from the spec: the missing `DispatcherSystem` /
`DispatcherSystemDesc` consume impls append the produced parallel task into
the dispatcher's bucket for their stage ("consuming it appends the task
directly into the dispatcher's bucket for that stage"); per the spec the
ThreadLocal stage is never stored in the parallel map, so an absent bucket is
left absent. -/
def Dispatcher.addTask (d : Dispatcher) (s : Stage) (t : Nat) : Dispatcher :=
  { d with stages := fun k => if k = s then (d.stages k).map (fun v => v ++ [t]) else d.stages k }

/-- Modelled from the spec: the missing `DispatcherThreadLocal` /
`DispatcherThreadLocalDesc` consume impls append the produced task to the
thread-local sequence. -/
def Dispatcher.addLocal (d : Dispatcher) (t : Nat) : Dispatcher :=
  { d with thread_locals := d.thread_locals ++ [t] }

/-- `Dispatcher::run(stage, world)`.  The ThreadLocal arm runs every
thread-local task once, in order, against the world; any other arm first
unwraps the stage's bucket out of the map, then unwraps the `ArcThreadPool`
resource, and hands the bucket to `StageExecutor`.  The result is the trace of
executed/handed-over tasks; `none` is a panic (a failed `unwrap`). -/
def Dispatcher.run (d : Dispatcher) (stage : Stage) (w : World) : Option (List Event) :=
  match stage with
  | Stage.ThreadLocal => some (d.thread_locals.map Event.loc)
  | _ =>
    match d.stages stage with
    | none => none
    | some tasks => if w.hasThreadPool then some (tasks.map Event.par) else none

/-- The guard of `Dispatcher::merge`: merge iterates the keys present in
`self` and unwraps `other`'s entry for each, so it panics unless every key
present in `d` is also present in `o`.  `Stage` has four values, so the
quantification is spelled out. -/
def Dispatcher.coveredBy (d o : Dispatcher) : Bool :=
  (!(d.stages Stage.Begin).isSome || (o.stages Stage.Begin).isSome) &&
  (!(d.stages Stage.Logic).isSome || (o.stages Stage.Logic).isSome) &&
  (!(d.stages Stage.Render).isSome || (o.stages Stage.Render).isSome) &&
  (!(d.stages Stage.ThreadLocal).isSome || (o.stages Stage.ThreadLocal).isSome)

/-- `Dispatcher::merge(self, other)` from the source: extend `self`'s
thread-locals with `other`'s, and for every key of `self`'s stage map extend
the bucket with `other`'s bucket for that key (`other.stages.get_mut(k).unwrap()`);
`none` is the panic when `other` lacks a key `self` has. -/
def Dispatcher.merge (d o : Dispatcher) : Option Dispatcher :=
  if d.coveredBy o then
    some { thread_locals := d.thread_locals ++ o.thread_locals,
           stages := fun k => (d.stages k).map (fun v => v ++ (o.stages k).getD []) }
  else none

/-- Well-formedness of a dispatcher as stated by the spec invariant: the three
parallel buckets Begin, Logic, Render are present (possibly empty) and
ThreadLocal is never a key of the map. -/
def Dispatcher.wellFormed (d : Dispatcher) : Prop :=
  (d.stages Stage.Begin).isSome = true ∧ (d.stages Stage.Logic).isSome = true ∧
  (d.stages Stage.Render).isSome = true ∧ d.stages Stage.ThreadLocal = none

instance (d : Dispatcher) : Decidable d.wellFormed := by
  unfold Dispatcher.wellFormed; infer_instance

/-- Modelled from the spec: the closed set of descriptor shapes behind the
`ConsumeDesc` contract (their concrete types live in the sibling module, not
in this file of the source): a pre-built parallel task with its stage, a
deferred parallel-task factory, a pre-built thread-local task, a deferred
thread-local factory, and a bundle, which, given the world, registers further
descriptors (and may fail). -/
inductive Desc where
  | system (stage : Stage) (task : Nat)
  | systemDesc (stage : Stage) (factory : World → Except AError Nat)
  | threadLocal (task : Nat)
  | threadLocalDesc (factory : World → Except AError Nat)
  | bundle (expand : World → Except AError (List Desc))

/-- The accumulation engine, from the source:
`pub struct DispatcherBuilder { systems: Vec<(Stage, Box<dyn ConsumeDesc>)>,
thread_locals: Vec<Box<dyn ConsumeDesc>>, bundles: Vec<Box<dyn ConsumeDesc>> }`. -/
structure DispatcherBuilder where
  systems : List (Stage × Desc)
  thread_locals : List Desc
  bundles : List Desc

/-- `DispatcherBuilder::default()` (derived `Default`): all three queues empty. -/
def DispatcherBuilder.default : DispatcherBuilder where
  systems := []
  thread_locals := []
  bundles := []

/-- `DispatcherBuilder::add_system`: push `(stage, DispatcherSystem(stage, task))`. -/
def DispatcherBuilder.add_system (b : DispatcherBuilder) (stage : Stage) (task : Nat) :
    DispatcherBuilder :=
  { b with systems := b.systems ++ [(stage, Desc.system stage task)] }

/-- `DispatcherBuilder::add_system_desc`: push the deferred factory tagged with
its stage. -/
def DispatcherBuilder.add_system_desc (b : DispatcherBuilder) (stage : Stage)
    (factory : World → Except AError Nat) : DispatcherBuilder :=
  { b with systems := b.systems ++ [(stage, Desc.systemDesc stage factory)] }

/-- `DispatcherBuilder::add_thread_local`. -/
def DispatcherBuilder.add_thread_local (b : DispatcherBuilder) (task : Nat) :
    DispatcherBuilder :=
  { b with thread_locals := b.thread_locals ++ [Desc.threadLocal task] }

/-- `DispatcherBuilder::add_thread_local_desc`. -/
def DispatcherBuilder.add_thread_local_desc (b : DispatcherBuilder)
    (factory : World → Except AError Nat) : DispatcherBuilder :=
  { b with thread_locals := b.thread_locals ++ [Desc.threadLocalDesc factory] }

/-- `DispatcherBuilder::add_bundle`. -/
def DispatcherBuilder.add_bundle (b : DispatcherBuilder)
    (expand : World → Except AError (List Desc)) : DispatcherBuilder :=
  { b with bundles := b.bundles ++ [Desc.bundle expand] }

/-- Modelled from the spec: a bundle registers further descriptors through the
builder's `add_*` interface, so each descriptor it produces is routed, in
order, to the queue its shape belongs to. -/
def DispatcherBuilder.addDesc (b : DispatcherBuilder) (d : Desc) : DispatcherBuilder :=
  match d with
  | Desc.system s _ => { b with systems := b.systems ++ [(s, d)] }
  | Desc.systemDesc s _ => { b with systems := b.systems ++ [(s, d)] }
  | Desc.threadLocal _ => { b with thread_locals := b.thread_locals ++ [d] }
  | Desc.threadLocalDesc _ => { b with thread_locals := b.thread_locals ++ [d] }
  | Desc.bundle _ => { b with bundles := b.bundles ++ [d] }

/-- `DispatcherBuilder::is_empty`: all three queues are empty. -/
def DispatcherBuilder.is_empty (b : DispatcherBuilder) : Bool :=
  b.systems.isEmpty && b.bundles.isEmpty && b.thread_locals.isEmpty

/-- Modelled from the spec: `ConsumeDesc::consume(self, world, dispatcher,
builder)` for each of the five descriptor shapes.  Pre-built descriptors
cannot fail; factory descriptors fail iff their factory does; a bundle never
writes to the dispatcher and registers its expansion into the recursive
builder. -/
def Desc.consume (d : Desc) (w : World) (disp : Dispatcher) (rb : DispatcherBuilder) :
    Except AError (Dispatcher × DispatcherBuilder) :=
  match d with
  | Desc.system s t => Except.ok (disp.addTask s t, rb)
  | Desc.systemDesc s f => (f w).map (fun t => (disp.addTask s t, rb))
  | Desc.threadLocal t => Except.ok (disp.addLocal t, rb)
  | Desc.threadLocalDesc f => (f w).map (fun t => (disp.addLocal t, rb))
  | Desc.bundle e => (e w).map (fun ds => (disp, ds.foldl DispatcherBuilder.addDesc rb))

/-- One drain loop of `build`: consume each descriptor in order into the
dispatcher and the shared recursive builder, stopping at the first failure
(the source unwraps each `consume` result). -/
def consumeList (ds : List Desc) (w : World) (disp : Dispatcher) (rb : DispatcherBuilder) :
    Except AError (Dispatcher × DispatcherBuilder) :=
  match ds with
  | [] => Except.ok (disp, rb)
  | d :: rest =>
    match d.consume w disp rb with
    | Except.error e => Except.error e
    | Except.ok (disp2, rb2) => consumeList rest w disp2 rb2

/-- `DispatcherBuilder::build(world)` from the source, with explicit fuel for
the unbounded recursion: drain the systems queue (only the descriptor
component of each pair is consumed), then the bundles queue, then the
thread-locals queue, all into a fresh `Dispatcher::default()` with one shared
initially-empty recursive builder; then, if the recursive builder is
non-empty, build it recursively and merge the child onto the dispatcher. -/
def DispatcherBuilder.build : Nat → DispatcherBuilder → World → Except AError Dispatcher
  | 0, _, _ => Except.error AError.outOfFuel
  | Nat.succ n, b, w =>
    match consumeList (b.systems.map Prod.snd) w Dispatcher.default DispatcherBuilder.default with
    | Except.error e => Except.error e
    | Except.ok (d1, r1) =>
      match consumeList b.bundles w d1 r1 with
      | Except.error e => Except.error e
      | Except.ok (d2, r2) =>
        match consumeList b.thread_locals w d2 r2 with
        | Except.error e => Except.error e
        | Except.ok (d3, r3) =>
          if r3.is_empty then Except.ok d3
          else
            match DispatcherBuilder.build n r3 w with
            | Except.error e => Except.error e
            | Except.ok child =>
              match d3.merge child with
              | some m => Except.ok m
              | none => Except.error AError.mergePanic

/-- Spec-side reformulation of one `build` pass, following the spec's words:
drain the concatenation systems-then-bundles-then-thread-locals in one
sequential sweep into a fresh dispatcher with a single shared initially-empty
recursive builder, then recurse on the side-channel if it is non-empty and
merge the child after the parent.  Compared against the source's three-loop
`DispatcherBuilder.build` by the claim theorems. -/
def buildSpec (n : Nat) (b : DispatcherBuilder) (w : World) : Except AError Dispatcher :=
  Except.bind
    (consumeList (b.systems.map Prod.snd ++ b.bundles ++ b.thread_locals) w
      Dispatcher.default DispatcherBuilder.default)
    (fun p =>
      if p.2.is_empty then Except.ok p.1
      else
        Except.bind (DispatcherBuilder.build n p.2 w)
          (fun child => (p.1.merge child).elim (Except.error AError.mergePanic) Except.ok))

/-- A builder holding exactly one bundle that registers the systems `ks` at
stage `s` followed by one nested bundle registering the systems `js` at stage
`s`: the bundle-expansion scenario of the spec. -/
def nestedBundleBuilder (s : Stage) (ks js : List Nat) : DispatcherBuilder where
  systems := []
  thread_locals := []
  bundles := [Desc.bundle (fun _ =>
    Except.ok (ks.map (Desc.system s) ++
      [Desc.bundle (fun _ => Except.ok (js.map (Desc.system s)))]))]

/-- A well-formed stages map with the given three parallel buckets, used for
concrete witness inputs. -/
def sampleStages (b l r : List Nat) : Stage → Option (List Nat) := fun s =>
  match s with
  | Stage.Begin => some b
  | Stage.Logic => some l
  | Stage.Render => some r
  | Stage.ThreadLocal => none

/-- Concrete witness dispatcher. -/
def sampleA : Dispatcher := ⟨[1], sampleStages [10] [11] []⟩

/-- Concrete witness dispatcher. -/
def sampleB : Dispatcher := ⟨[2], sampleStages [20] [] [21]⟩

/-- Concrete witness dispatcher. -/
def sampleC : Dispatcher := ⟨[3], sampleStages [] [30] [31]⟩

/-- Concrete witness dispatcher sharing `sampleA`'s thread-locals but with
different parallel buckets. -/
def sampleA2 : Dispatcher := ⟨[1], sampleStages [99] [] [98]⟩

/-! Helper lemmas shared by the claim theorems. -/


theorem except_bind_ok {α β : Type} (a : α) (f : α → Except AError β) :
    Except.bind (Except.ok a) f = f a := rfl

theorem except_bind_error {α β : Type} (e : AError) (f : α → Except AError β) :
    Except.bind (Except.error e) f = (Except.error e : Except AError β) := rfl

theorem dispatcher_eq_of {d e : Dispatcher} (h1 : d.thread_locals = e.thread_locals)
    (h2 : ∀ s, d.stages s = e.stages s) : d = e := by
  cases d; cases e
  simp only [Dispatcher.mk.injEq]
  exact ⟨h1, funext h2⟩

theorem default_stages_parallel {s : Stage} (hs : s ≠ Stage.ThreadLocal) :
    Dispatcher.default.stages s = some [] := by
  cases s
  · rfl
  · rfl
  · rfl
  · exact absurd rfl hs

theorem default_wellFormed : Dispatcher.default.wellFormed :=
  ⟨rfl, rfl, rfl, rfl⟩

theorem consumeList_append (l1 l2 : List Desc) (w : World) :
    ∀ (d : Dispatcher) (r : DispatcherBuilder),
      consumeList (l1 ++ l2) w d r =
        Except.bind (consumeList l1 w d r) (fun p => consumeList l2 w p.1 p.2) := by
  induction l1 with
  | nil => intro d r; rfl
  | cons hd tl ih =>
    intro d r
    cases hhd : hd.consume w d r with
    | error e => simp only [List.cons_append, consumeList, hhd]; rfl
    | ok p =>
      obtain ⟨d2, r2⟩ := p
      simp only [List.cons_append, consumeList, hhd]
      exact ih d2 r2

theorem consumeList_error_of (w : World) (pre post : List Desc) (dd : Desc) (e : AError)
    (d : Dispatcher) (r : DispatcherBuilder) (d1 : Dispatcher) (r1 : DispatcherBuilder)
    (hpre : consumeList pre w d r = Except.ok (d1, r1))
    (hfail : dd.consume w d1 r1 = Except.error e) :
    consumeList (pre ++ dd :: post) w d r = Except.error e := by
  rw [consumeList_append, hpre, except_bind_ok]
  show consumeList (dd :: post) w d1 r1 = Except.error e
  simp only [consumeList, hfail]

theorem build_zero (b : DispatcherBuilder) (w : World) :
    DispatcherBuilder.build 0 b w = Except.error AError.outOfFuel := rfl

theorem build_succ_loops (n : Nat) (b : DispatcherBuilder) (w : World) :
    DispatcherBuilder.build (n + 1) b w =
      match consumeList (b.systems.map Prod.snd) w Dispatcher.default
          DispatcherBuilder.default with
      | Except.error e => Except.error e
      | Except.ok (d1, r1) =>
        match consumeList b.bundles w d1 r1 with
        | Except.error e => Except.error e
        | Except.ok (d2, r2) =>
          match consumeList b.thread_locals w d2 r2 with
          | Except.error e => Except.error e
          | Except.ok (d3, r3) =>
            if r3.is_empty then Except.ok d3
            else
              match DispatcherBuilder.build n r3 w with
              | Except.error e => Except.error e
              | Except.ok child =>
                match d3.merge child with
                | some m => Except.ok m
                | none => Except.error AError.mergePanic := rfl

theorem build_succ (n : Nat) (b : DispatcherBuilder) (w : World) :
    DispatcherBuilder.build (n + 1) b w = buildSpec n b w := by
  rw [build_succ_loops, buildSpec, consumeList_append, consumeList_append]
  cases h1 : consumeList (b.systems.map Prod.snd) w Dispatcher.default
      DispatcherBuilder.default with
  | error e => rfl
  | ok p1 =>
    obtain ⟨d1, r1⟩ := p1
    show (match consumeList b.bundles w d1 r1 with
          | Except.error e => Except.error e
          | Except.ok (d2, r2) =>
            match consumeList b.thread_locals w d2 r2 with
            | Except.error e => Except.error e
            | Except.ok (d3, r3) =>
              if r3.is_empty then Except.ok d3
              else
                match DispatcherBuilder.build n r3 w with
                | Except.error e => Except.error e
                | Except.ok child =>
                  match d3.merge child with
                  | some m => Except.ok m
                  | none => Except.error AError.mergePanic) =
        Except.bind (Except.bind (consumeList b.bundles w d1 r1)
            (fun p => consumeList b.thread_locals w p.1 p.2))
          (fun p =>
            if p.2.is_empty then Except.ok p.1
            else
              Except.bind (DispatcherBuilder.build n p.2 w)
                (fun child => (p.1.merge child).elim (Except.error AError.mergePanic) Except.ok))
    cases h2 : consumeList b.bundles w d1 r1 with
    | error e => rfl
    | ok p2 =>
      obtain ⟨d2, r2⟩ := p2
      show (match consumeList b.thread_locals w d2 r2 with
            | Except.error e => Except.error e
            | Except.ok (d3, r3) =>
              if r3.is_empty then Except.ok d3
              else
                match DispatcherBuilder.build n r3 w with
                | Except.error e => Except.error e
                | Except.ok child =>
                  match d3.merge child with
                  | some m => Except.ok m
                  | none => Except.error AError.mergePanic) =
          Except.bind (consumeList b.thread_locals w d2 r2)
            (fun p =>
              if p.2.is_empty then Except.ok p.1
              else
                Except.bind (DispatcherBuilder.build n p.2 w)
                  (fun child =>
                    (p.1.merge child).elim (Except.error AError.mergePanic) Except.ok))
      cases h3 : consumeList b.thread_locals w d2 r2 with
      | error e => rfl
      | ok p3 =>
        obtain ⟨d3, r3⟩ := p3
        show (if r3.is_empty then Except.ok d3
              else
                match DispatcherBuilder.build n r3 w with
                | Except.error e => Except.error e
                | Except.ok child =>
                  match d3.merge child with
                  | some m => Except.ok m
                  | none => Except.error AError.mergePanic) =
            (if r3.is_empty then Except.ok d3
             else
               Except.bind (DispatcherBuilder.build n r3 w)
                 (fun child => (d3.merge child).elim (Except.error AError.mergePanic) Except.ok))
        by_cases he : r3.is_empty = true
        · rw [if_pos he, if_pos he]
        · rw [if_neg he, if_neg he]
          cases h4 : DispatcherBuilder.build n r3 w with
          | error e => rfl
          | ok child =>
            show (match d3.merge child with
                  | some m => Except.ok m
                  | none => Except.error AError.mergePanic) =
                (d3.merge child).elim (Except.error AError.mergePanic) Except.ok
            cases d3.merge child <;> rfl

theorem addTask_stages (d : Dispatcher) (s : Stage) (t : Nat) (k : Stage) :
    (d.addTask s t).stages k =
      if k = s then (d.stages k).map (fun v => v ++ [t]) else d.stages k := rfl

theorem addTask_locals (d : Dispatcher) (s : Stage) (t : Nat) :
    (d.addTask s t).thread_locals = d.thread_locals := rfl

theorem wellFormed_addTask {d : Dispatcher} (hd : d.wellFormed) (s : Stage) (t : Nat) :
    (d.addTask s t).wellFormed := by
  obtain ⟨h1, h2, h3, h4⟩ := hd
  refine ⟨?_, ?_, ?_, ?_⟩
  · rw [addTask_stages]
    by_cases h : Stage.Begin = s
    · rw [if_pos h]; simp [Option.isSome_map, h1]
    · rw [if_neg h]; exact h1
  · rw [addTask_stages]
    by_cases h : Stage.Logic = s
    · rw [if_pos h]; simp [Option.isSome_map, h2]
    · rw [if_neg h]; exact h2
  · rw [addTask_stages]
    by_cases h : Stage.Render = s
    · rw [if_pos h]; simp [Option.isSome_map, h3]
    · rw [if_neg h]; exact h3
  · rw [addTask_stages]
    by_cases h : Stage.ThreadLocal = s
    · rw [if_pos h]; simp [h4]
    · rw [if_neg h]; exact h4

theorem wellFormed_addLocal {d : Dispatcher} (hd : d.wellFormed) (t : Nat) :
    (d.addLocal t).wellFormed := hd

theorem wellFormed_consume {w : World} (dd : Desc) {d d1 : Dispatcher}
    {rb r1 : DispatcherBuilder} (h : dd.consume w d rb = Except.ok (d1, r1))
    (hd : d.wellFormed) : d1.wellFormed := by
  cases dd with
  | system s t =>
    have h' : Except.ok (ε := AError) (d.addTask s t, rb) = Except.ok (d1, r1) := h
    rw [Except.ok.injEq, Prod.mk.injEq] at h'
    rw [← h'.1]; exact wellFormed_addTask hd s t
  | systemDesc s f =>
    have h' : Except.map (fun t => (d.addTask s t, rb)) (f w) = Except.ok (d1, r1) := h
    cases hf : f w with
    | error e =>
      rw [hf] at h'
      exact Except.noConfusion h'
    | ok t =>
      rw [hf] at h'
      have h'' : Except.ok (ε := AError) (d.addTask s t, rb) = Except.ok (d1, r1) := h'
      rw [Except.ok.injEq, Prod.mk.injEq] at h''
      rw [← h''.1]; exact wellFormed_addTask hd s t
  | threadLocal t =>
    have h' : Except.ok (ε := AError) (d.addLocal t, rb) = Except.ok (d1, r1) := h
    rw [Except.ok.injEq, Prod.mk.injEq] at h'
    rw [← h'.1]; exact hd
  | threadLocalDesc f =>
    have h' : Except.map (fun t => (d.addLocal t, rb)) (f w) = Except.ok (d1, r1) := h
    cases hf : f w with
    | error e =>
      rw [hf] at h'
      exact Except.noConfusion h'
    | ok t =>
      rw [hf] at h'
      have h'' : Except.ok (ε := AError) (d.addLocal t, rb) = Except.ok (d1, r1) := h'
      rw [Except.ok.injEq, Prod.mk.injEq] at h''
      rw [← h''.1]; exact hd
  | bundle ex =>
    have h' : Except.map (fun ds => (d, ds.foldl DispatcherBuilder.addDesc rb)) (ex w) =
        Except.ok (d1, r1) := h
    cases he : ex w with
    | error e =>
      rw [he] at h'
      exact Except.noConfusion h'
    | ok ds =>
      rw [he] at h'
      have h'' : Except.ok (ε := AError) (d, ds.foldl DispatcherBuilder.addDesc rb) =
          Except.ok (d1, r1) := h'
      rw [Except.ok.injEq, Prod.mk.injEq] at h''
      rw [← h''.1]; exact hd

theorem wellFormed_consumeList {w : World} (ds : List Desc) :
    ∀ {d d1 : Dispatcher} {rb r1 : DispatcherBuilder},
      consumeList ds w d rb = Except.ok (d1, r1) → d.wellFormed → d1.wellFormed := by
  induction ds with
  | nil =>
    intro d d1 rb r1 h hd
    have h' : Except.ok (ε := AError) (d, rb) = Except.ok (d1, r1) := h
    rw [Except.ok.injEq, Prod.mk.injEq] at h'
    rw [← h'.1]; exact hd
  | cons hd tl ih =>
    intro d d1 rb r1 h hwf
    cases hhd : hd.consume w d rb with
    | error e =>
      simp only [consumeList, hhd] at h
      exact Except.noConfusion h
    | ok p =>
      obtain ⟨d2, r2⟩ := p
      simp only [consumeList, hhd] at h
      exact ih h (wellFormed_consume hd hhd hwf)

theorem coveredBy_of_wf {d o : Dispatcher} (hd : d.wellFormed) (ho : o.wellFormed) :
    d.coveredBy o = true := by
  obtain ⟨_, _, _, hd4⟩ := hd
  obtain ⟨ho1, ho2, ho3, _⟩ := ho
  simp [Dispatcher.coveredBy, ho1, ho2, ho3, hd4]

theorem merge_of_wf {d o : Dispatcher} (hd : d.wellFormed) (ho : o.wellFormed) :
    d.merge o = some (Dispatcher.mk (d.thread_locals ++ o.thread_locals)
      (fun k => (d.stages k).map (fun v => v ++ (o.stages k).getD []))) := by
  rw [Dispatcher.merge, if_pos (coveredBy_of_wf hd ho)]

theorem wellFormed_merge {d o m : Dispatcher} (hd : d.wellFormed) (ho : o.wellFormed)
    (h : d.merge o = some m) : m.wellFormed := by
  rw [merge_of_wf hd ho, Option.some.injEq] at h
  obtain ⟨h1, h2, h3, h4⟩ := hd
  subst h
  refine ⟨?_, ?_, ?_, ?_⟩
  · simp [Option.isSome_map, h1]
  · simp [Option.isSome_map, h2]
  · simp [Option.isSome_map, h3]
  · simp [h4]

theorem build_wf (n : Nat) :
    ∀ (b : DispatcherBuilder) (w : World) (d : Dispatcher),
      DispatcherBuilder.build n b w = Except.ok d → d.wellFormed := by
  induction n with
  | zero =>
    intro b w d h
    have h' : Except.error (α := Dispatcher) AError.outOfFuel = Except.ok d := h
    exact Except.noConfusion h'
  | succ n ih =>
    intro b w d h
    rw [build_succ, buildSpec] at h
    cases hc : consumeList (b.systems.map Prod.snd ++ b.bundles ++ b.thread_locals) w
        Dispatcher.default DispatcherBuilder.default with
    | error e =>
      rw [hc, except_bind_error] at h
      exact Except.noConfusion h
    | ok p =>
      obtain ⟨dp, rp⟩ := p
      rw [hc, except_bind_ok] at h
      have hp : dp.wellFormed := wellFormed_consumeList _ hc default_wellFormed
      have h' : (if rp.is_empty then Except.ok dp
          else Except.bind (DispatcherBuilder.build n rp w)
            (fun child => (dp.merge child).elim (Except.error AError.mergePanic) Except.ok)) =
          Except.ok d := h
      by_cases he : rp.is_empty = true
      · rw [if_pos he, Except.ok.injEq] at h'
        rw [← h']; exact hp
      · rw [if_neg he] at h'
        cases hb : DispatcherBuilder.build n rp w with
        | error e =>
          rw [hb, except_bind_error] at h'
          exact Except.noConfusion h'
        | ok child =>
          rw [hb, except_bind_ok] at h'
          cases hm : dp.merge child with
          | none =>
            rw [hm] at h'
            exact Except.noConfusion h'
          | some m =>
            rw [hm] at h'
            have h'' : Except.ok (ε := AError) m = Except.ok d := h'
            rw [Except.ok.injEq] at h''
            rw [← h'']
            exact wellFormed_merge hp (ih rp w child hb) hm


theorem foldl_addTask_stages (s : Stage) (ks : List Nat) :
    ∀ (d : Dispatcher) (k : Stage),
      (ks.foldl (fun a t => a.addTask s t) d).stages k =
        if k = s then (d.stages k).map (fun v => v ++ ks) else d.stages k := by
  induction ks with
  | nil =>
    intro d k
    by_cases h : k = s
    · rw [List.foldl_nil, if_pos h]
      cases d.stages k <;> simp
    · rw [List.foldl_nil, if_neg h]
  | cons t ts ih =>
    intro d k
    rw [List.foldl_cons, ih]
    by_cases h : k = s
    · rw [if_pos h, if_pos h, addTask_stages, if_pos h]
      cases d.stages k <;> simp
    · rw [if_neg h, if_neg h, addTask_stages, if_neg h]

theorem foldl_addTask_locals (s : Stage) (ks : List Nat) :
    ∀ d : Dispatcher,
      (ks.foldl (fun a t => a.addTask s t) d).thread_locals = d.thread_locals := by
  induction ks with
  | nil => intro d; rfl
  | cons t ts ih => intro d; rw [List.foldl_cons, ih]; rfl

theorem wellFormed_foldl_addTask (s : Stage) (ks : List Nat) :
    ∀ {d : Dispatcher}, d.wellFormed → (ks.foldl (fun a t => a.addTask s t) d).wellFormed := by
  induction ks with
  | nil => intro d hd; exact hd
  | cons t ts ih => intro d hd; exact ih (wellFormed_addTask hd s t)

theorem consumeList_systems (s : Stage) (w : World) (ks : List Nat) :
    ∀ (d : Dispatcher) (r : DispatcherBuilder),
      consumeList (ks.map (Desc.system s)) w d r =
        Except.ok (ks.foldl (fun a t => a.addTask s t) d, r) := by
  induction ks with
  | nil => intro d r; rfl
  | cons t ts ih => intro d r; exact ih (d.addTask s t) r

theorem foldl_addDesc_systems (s : Stage) (ks : List Nat) :
    ∀ rb : DispatcherBuilder,
      (ks.map (Desc.system s)).foldl DispatcherBuilder.addDesc rb =
        DispatcherBuilder.mk (rb.systems ++ ks.map (fun t => (s, Desc.system s t)))
          rb.thread_locals rb.bundles := by
  induction ks with
  | nil => intro rb; cases rb; simp
  | cons t ts ih =>
    intro rb
    rw [List.map_cons, List.foldl_cons, ih]
    cases rb
    simp [DispatcherBuilder.addDesc]

theorem run_parallel_none (d : Dispatcher) (s : Stage) (w : World)
    (hs : s ≠ Stage.ThreadLocal) (hd : d.wellFormed) (hp : w.hasThreadPool = false) :
    d.run s w = none := by
  obtain ⟨h1, h2, h3, _⟩ := hd
  cases s with
  | ThreadLocal => exact absurd rfl hs
  | Begin =>
    obtain ⟨v, hv⟩ := Option.isSome_iff_exists.mp h1
    simp [Dispatcher.run, hv, hp]
  | Logic =>
    obtain ⟨v, hv⟩ := Option.isSome_iff_exists.mp h2
    simp [Dispatcher.run, hv, hp]
  | Render =>
    obtain ⟨v, hv⟩ := Option.isSome_iff_exists.mp h3
    simp [Dispatcher.run, hv, hp]

theorem build_systems_only (s : Stage) (js : List Nat) (w : World) (n : Nat) :
    DispatcherBuilder.build (n + 1)
        (DispatcherBuilder.mk (js.map (fun t => (s, Desc.system s t))) [] []) w =
      Except.ok (js.foldl (fun a t => a.addTask s t) Dispatcher.default) := by
  rw [build_succ, buildSpec]
  have h1 : consumeList
      ((DispatcherBuilder.mk (js.map (fun t => (s, Desc.system s t))) [] []).systems.map Prod.snd ++
        (DispatcherBuilder.mk (js.map (fun t => (s, Desc.system s t))) [] []).bundles ++
        (DispatcherBuilder.mk (js.map (fun t => (s, Desc.system s t))) [] []).thread_locals) w
      Dispatcher.default DispatcherBuilder.default =
      Except.ok (js.foldl (fun a t => a.addTask s t) Dispatcher.default,
        DispatcherBuilder.default) := by
    show consumeList ((js.map (fun t => (s, Desc.system s t))).map Prod.snd ++ [] ++ []) w
        Dispatcher.default DispatcherBuilder.default = _
    rw [List.append_nil, List.append_nil, List.map_map]
    exact consumeList_systems s w js Dispatcher.default DispatcherBuilder.default
  rw [h1]
  rfl


theorem mk_stages (a : List Nat) (f : Stage → Option (List Nat)) (k : Stage) :
    (Dispatcher.mk a f).stages k = f k := rfl

theorem mk_locals (a : List Nat) (f : Stage → Option (List Nat)) :
    (Dispatcher.mk a f).thread_locals = a := rfl

theorem foldl_addTask_default_stages (s : Stage) (hs : s ≠ Stage.ThreadLocal)
    (l : List Nat) (k : Stage) :
    ((l.foldl (fun a t => a.addTask s t) Dispatcher.default).stages k) =
      if k = s then some l else Dispatcher.default.stages k := by
  rw [foldl_addTask_stages]
  by_cases h : k = s
  · rw [if_pos h, if_pos h, h, default_stages_parallel hs]
    simp
  · rw [if_neg h, if_neg h]

theorem build_nested_middle (s : Stage) (hs : s ≠ Stage.ThreadLocal) (ks js : List Nat)
    (w : World) :
    ∃ C, DispatcherBuilder.build 2
        (DispatcherBuilder.mk (ks.map (fun t => (s, Desc.system s t))) []
          [Desc.bundle (fun _ => Except.ok (js.map (Desc.system s)))]) w = Except.ok C ∧
      C.stages s = some (ks ++ js) ∧
      (∀ k, k ≠ s → k ≠ Stage.ThreadLocal → C.stages k = some []) ∧
      C.stages Stage.ThreadLocal = none ∧
      C.thread_locals = [] := by
  have hDkwf : (ks.foldl (fun a t => a.addTask s t) Dispatcher.default).wellFormed :=
    wellFormed_foldl_addTask s ks default_wellFormed
  have h1 : consumeList
      ((DispatcherBuilder.mk (ks.map (fun t => (s, Desc.system s t))) []
          [Desc.bundle (fun _ => Except.ok (js.map (Desc.system s)))]).systems.map Prod.snd ++
        (DispatcherBuilder.mk (ks.map (fun t => (s, Desc.system s t))) []
          [Desc.bundle (fun _ => Except.ok (js.map (Desc.system s)))]).bundles ++
        (DispatcherBuilder.mk (ks.map (fun t => (s, Desc.system s t))) []
          [Desc.bundle (fun _ => Except.ok (js.map (Desc.system s)))]).thread_locals) w
      Dispatcher.default DispatcherBuilder.default =
      Except.ok (ks.foldl (fun a t => a.addTask s t) Dispatcher.default,
        DispatcherBuilder.mk (js.map (fun t => (s, Desc.system s t))) [] []) := by
    show consumeList
        ((ks.map (fun t => (s, Desc.system s t))).map Prod.snd ++
          [Desc.bundle (fun _ => Except.ok (js.map (Desc.system s)))] ++ []) w
        Dispatcher.default DispatcherBuilder.default = _
    rw [List.append_nil, List.map_map]
    rw [show ks.map (Prod.snd ∘ fun t => (s, Desc.system s t)) = ks.map (Desc.system s)
      from rfl]
    rw [consumeList_append, consumeList_systems s w ks Dispatcher.default
      DispatcherBuilder.default, except_bind_ok]
    show Except.ok (ks.foldl (fun a t => a.addTask s t) Dispatcher.default,
        (js.map (Desc.system s)).foldl DispatcherBuilder.addDesc DispatcherBuilder.default) = _
    rw [foldl_addDesc_systems]
    rfl
  have h2 : DispatcherBuilder.build 2
      (DispatcherBuilder.mk (ks.map (fun t => (s, Desc.system s t))) []
        [Desc.bundle (fun _ => Except.ok (js.map (Desc.system s)))]) w =
      (if (DispatcherBuilder.mk (js.map (fun t => (s, Desc.system s t))) []
            ([] : List Desc)).is_empty then
        Except.ok (ks.foldl (fun a t => a.addTask s t) Dispatcher.default)
      else
        Except.bind (DispatcherBuilder.build 1
            (DispatcherBuilder.mk (js.map (fun t => (s, Desc.system s t))) [] []) w)
          (fun child =>
            ((ks.foldl (fun a t => a.addTask s t) Dispatcher.default).merge child).elim
              (Except.error AError.mergePanic) Except.ok)) := by
    rw [show (2 : Nat) = 1 + 1 from rfl, build_succ, buildSpec, h1, except_bind_ok]
  cases js with
  | nil =>
    refine ⟨ks.foldl (fun a t => a.addTask s t) Dispatcher.default, ?_, ?_, ?_, ?_, ?_⟩
    · rw [h2]
      rfl
    · rw [foldl_addTask_default_stages s hs, if_pos rfl]
      simp
    · intro k hk hktl
      rw [foldl_addTask_default_stages s hs, if_neg hk, default_stages_parallel hktl]
    · rw [foldl_addTask_default_stages s hs, if_neg (Ne.symm hs)]
      rfl
    · exact foldl_addTask_locals s ks Dispatcher.default
  | cons j js2 =>
    have hDjwf : ((j :: js2).foldl (fun a t => a.addTask s t) Dispatcher.default).wellFormed :=
      wellFormed_foldl_addTask s (j :: js2) default_wellFormed
    refine ⟨Dispatcher.mk
        ((ks.foldl (fun a t => a.addTask s t) Dispatcher.default).thread_locals ++
          ((j :: js2).foldl (fun a t => a.addTask s t) Dispatcher.default).thread_locals)
        (fun k => ((ks.foldl (fun a t => a.addTask s t) Dispatcher.default).stages k).map
          (fun v => v ++
            (((j :: js2).foldl (fun a t => a.addTask s t) Dispatcher.default).stages k).getD [])),
      ?_, ?_, ?_, ?_, ?_⟩
    · rw [h2, if_neg (show ¬((DispatcherBuilder.mk
          ((j :: js2).map (fun t => (s, Desc.system s t))) [] ([] : List Desc)).is_empty = true)
          from Bool.false_ne_true)]
      rw [build_systems_only s (j :: js2) w 0, except_bind_ok]
      show ((ks.foldl (fun a t => a.addTask s t) Dispatcher.default).merge
          ((j :: js2).foldl (fun a t => a.addTask s t) Dispatcher.default)).elim
          (Except.error AError.mergePanic) Except.ok = _
      rw [merge_of_wf hDkwf hDjwf]
      rfl
    · simp only [mk_stages]
      rw [foldl_addTask_default_stages s hs, if_pos rfl,
        foldl_addTask_default_stages s hs, if_pos rfl]
      simp
    · intro k hk hktl
      simp only [mk_stages]
      rw [foldl_addTask_default_stages s hs, if_neg hk,
        foldl_addTask_default_stages s hs, if_neg hk, default_stages_parallel hktl]
      simp
    · simp only [mk_stages]
      rw [foldl_addTask_default_stages s hs, if_neg (Ne.symm hs),
        foldl_addTask_default_stages s hs, if_neg (Ne.symm hs)]
      rfl
    · simp only [mk_locals]
      rw [foldl_addTask_locals, foldl_addTask_locals]
      rfl


/-! The claim theorems. -/

/-- C1: if any descriptor consumed during `DispatcherBuilder::build` signals
failure, `build` propagates exactly that failure out (the source's `unwrap`
panic, modelled as the `Except.error` outcome), with no dispatcher produced
and independently of the descriptors queued after the failing one, even if
those would have succeeded. -/
theorem build_fail_fast (n : Nat) (b : DispatcherBuilder) (w : World)
    (pre post : List Desc) (dd : Desc) (e : AError)
    (d1 : Dispatcher) (r1 : DispatcherBuilder)
    (hqueues : b.systems.map Prod.snd ++ b.bundles ++ b.thread_locals = pre ++ dd :: post)
    (hpre : consumeList pre w Dispatcher.default DispatcherBuilder.default =
      Except.ok (d1, r1))
    (hfail : dd.consume w d1 r1 = Except.error e) :
    DispatcherBuilder.build (n + 1) b w = Except.error e := by
  rw [build_succ, buildSpec, hqueues,
    consumeList_error_of w pre post dd e Dispatcher.default DispatcherBuilder.default d1 r1
      hpre hfail, except_bind_error]

theorem build_fail_fast_witness :
    DispatcherBuilder.build 5
        (DispatcherBuilder.mk
          [(Stage.Logic, Desc.systemDesc Stage.Logic (fun _ => Except.error (AError.user 7))),
           (Stage.Logic, Desc.system Stage.Logic 3)] [] []) (World.mk true) =
      Except.error (AError.user 7) :=
  build_fail_fast 4
    (DispatcherBuilder.mk
      [(Stage.Logic, Desc.systemDesc Stage.Logic (fun _ => Except.error (AError.user 7))),
       (Stage.Logic, Desc.system Stage.Logic 3)] [] []) (World.mk true)
    [] [Desc.system Stage.Logic 3]
    (Desc.systemDesc Stage.Logic (fun _ => Except.error (AError.user 7))) (AError.user 7)
    Dispatcher.default DispatcherBuilder.default rfl rfl rfl

/-- C2: `DispatcherBuilder::build` (defined with the source's three drain
loops) coincides with the spec-side `buildSpec`: one sequential sweep over the
concatenation systems-queue, then bundles-queue, then thread-locals-queue, in
registration order, into a fresh `Dispatcher::default()` with a single shared
initially-empty recursive builder threaded through every consume call. -/
theorem build_drain_order (n : Nat) (b : DispatcherBuilder) (w : World) :
    DispatcherBuilder.build (n + 1) b w = buildSpec n b w :=
  build_succ n b w

/-- C3: after the three drains, a non-empty recursive side-channel builder is
recursively built and merged onto the phase-1 dispatcher, and an empty one
returns the phase-1 dispatcher unchanged; consequently a bundle registering
systems `ks` plus one nested bundle registering systems `js` yields a
dispatcher whose bucket for the stage holds `ks ++ js` (so `ks.length +
js.length` systems, the nested bundle's placed after the first-level ones)
and nothing else anywhere. -/
theorem build_recursive_expansion :
    (∀ (n : Nat) (b : DispatcherBuilder) (w : World) (p : Dispatcher × DispatcherBuilder),
      consumeList (b.systems.map Prod.snd ++ b.bundles ++ b.thread_locals) w
          Dispatcher.default DispatcherBuilder.default = Except.ok p →
      (p.2.is_empty = true → DispatcherBuilder.build (n + 1) b w = Except.ok p.1) ∧
      (p.2.is_empty = false →
        DispatcherBuilder.build (n + 1) b w =
          Except.bind (DispatcherBuilder.build n p.2 w)
            (fun child => (p.1.merge child).elim (Except.error AError.mergePanic) Except.ok))) ∧
    (∀ (s : Stage), s ≠ Stage.ThreadLocal → ∀ (ks js : List Nat) (w : World),
      ∃ D, DispatcherBuilder.build 3 (nestedBundleBuilder s ks js) w = Except.ok D ∧
        D.stages s = some (ks ++ js) ∧
        (∀ k, k ≠ s → k ≠ Stage.ThreadLocal → D.stages k = some []) ∧
        D.stages Stage.ThreadLocal = none ∧
        D.thread_locals = []) := by
  constructor
  · intro n b w p hc
    constructor
    · intro he
      rw [build_succ, buildSpec, hc]
      simp only [except_bind_ok]
      rw [if_pos he]
    · intro he
      rw [build_succ, buildSpec, hc]
      simp only [except_bind_ok]
      rw [if_neg (show ¬(p.2.is_empty = true) from by rw [he]; exact Bool.false_ne_true)]
  · intro s hs ks js w
    obtain ⟨C, hC, hCs, hCk, hCtl, hCloc⟩ := build_nested_middle s hs ks js w
    have hwfC : C.wellFormed := build_wf 2 _ w C hC
    refine ⟨Dispatcher.mk (Dispatcher.default.thread_locals ++ C.thread_locals)
        (fun k => (Dispatcher.default.stages k).map (fun v => v ++ (C.stages k).getD [])),
      ?_, ?_, ?_, ?_, ?_⟩
    · rw [show (3 : Nat) = 2 + 1 from rfl, build_succ, buildSpec]
      have hph : consumeList ((nestedBundleBuilder s ks js).systems.map Prod.snd ++
          (nestedBundleBuilder s ks js).bundles ++
          (nestedBundleBuilder s ks js).thread_locals) w
          Dispatcher.default DispatcherBuilder.default =
          Except.ok (Dispatcher.default,
            DispatcherBuilder.mk (ks.map (fun t => (s, Desc.system s t))) []
              [Desc.bundle (fun _ => Except.ok (js.map (Desc.system s)))]) := by
        show Except.ok (Dispatcher.default,
            (ks.map (Desc.system s) ++
              [Desc.bundle (fun _ => Except.ok (js.map (Desc.system s)))]).foldl
              DispatcherBuilder.addDesc DispatcherBuilder.default) = _
        rw [List.foldl_append, foldl_addDesc_systems]
        rfl
      rw [hph]
      simp only [except_bind_ok]
      have hne : ¬((DispatcherBuilder.mk (ks.map (fun t => (s, Desc.system s t))) []
          [Desc.bundle (fun _ => Except.ok (js.map (Desc.system s)))]).is_empty = true) := by
        simp [DispatcherBuilder.is_empty]
      rw [if_neg hne, hC]
      simp only [except_bind_ok]
      rw [merge_of_wf default_wellFormed hwfC]
      rfl
    · simp only [mk_stages]
      rw [default_stages_parallel hs, hCs]
      rfl
    · intro k hk hktl
      simp only [mk_stages]
      rw [default_stages_parallel hktl, hCk k hk hktl]
      rfl
    · simp only [mk_stages]
      rw [hCtl]
      rfl
    · simp only [mk_locals]
      rw [hCloc]
      rfl

theorem build_recursive_expansion_witness :
    DispatcherBuilder.build 1 DispatcherBuilder.default (World.mk true) =
      Except.ok Dispatcher.default ∧
    (∃ D, DispatcherBuilder.build 3 (nestedBundleBuilder Stage.Logic [1, 2] [5])
        (World.mk true) = Except.ok D ∧
      D.stages Stage.Logic = some ([1, 2] ++ [5]) ∧
      (∀ k, k ≠ Stage.Logic → k ≠ Stage.ThreadLocal → D.stages k = some []) ∧
      D.stages Stage.ThreadLocal = none ∧
      D.thread_locals = []) :=
  ⟨(build_recursive_expansion.1 0 DispatcherBuilder.default (World.mk true)
      (Dispatcher.default, DispatcherBuilder.default) rfl).1 rfl,
   build_recursive_expansion.2 Stage.Logic (by decide) [1, 2] [5] (World.mk true)⟩

/-- C4: `Dispatcher::merge(self, other)` returns a single dispatcher whose
thread-local sequence is self's thread-locals followed by other's and whose
bucket for each of the three parallel stages is self's tasks followed by
other's, relative order inside each operand preserved. -/
theorem merge_append_spec (d o : Dispatcher) (hd : d.wellFormed) (ho : o.wellFormed) :
    ∃ m, d.merge o = some m ∧
      m.thread_locals = d.thread_locals ++ o.thread_locals ∧
      (∀ s, s ≠ Stage.ThreadLocal →
        m.stages s = some ((d.stages s).getD [] ++ (o.stages s).getD [])) ∧
      m.stages Stage.ThreadLocal = none := by
  obtain ⟨h1, h2, h3, h4⟩ := hd
  refine ⟨_, merge_of_wf ⟨h1, h2, h3, h4⟩ ho, rfl, ?_, ?_⟩
  · intro s hsne
    simp only [mk_stages]
    cases s with
    | ThreadLocal => exact absurd rfl hsne
    | Begin =>
      obtain ⟨v, hv⟩ := Option.isSome_iff_exists.mp h1
      rw [hv]
      rfl
    | Logic =>
      obtain ⟨v, hv⟩ := Option.isSome_iff_exists.mp h2
      rw [hv]
      rfl
    | Render =>
      obtain ⟨v, hv⟩ := Option.isSome_iff_exists.mp h3
      rw [hv]
      rfl
  · simp only [mk_stages]
    rw [h4]
    rfl

theorem merge_append_spec_witness :
    sampleA.wellFormed ∧ sampleB.wellFormed ∧
    (∃ m, sampleA.merge sampleB = some m ∧
      m.thread_locals = sampleA.thread_locals ++ sampleB.thread_locals ∧
      (∀ s, s ≠ Stage.ThreadLocal →
        m.stages s = some ((sampleA.stages s).getD [] ++ (sampleB.stages s).getD [])) ∧
      m.stages Stage.ThreadLocal = none) :=
  ⟨⟨rfl, rfl, rfl, rfl⟩, ⟨rfl, rfl, rfl, rfl⟩,
   merge_append_spec sampleA sampleB ⟨rfl, rfl, rfl, rfl⟩ ⟨rfl, rfl, rfl, rfl⟩⟩

/-- C5: for well-formed dispatchers, merging associates (the two merge orders
produce the same dispatcher, hence the same per-stage and thread-local
orderings) and the empty dispatcher is a two-sided identity. -/
theorem merge_assoc_identity (a b c : Dispatcher)
    (ha : a.wellFormed) (hb : b.wellFormed) (hc : c.wellFormed) :
    (∀ ab bc, a.merge b = some ab → b.merge c = some bc → ab.merge c = a.merge bc) ∧
    a.merge Dispatcher.default = some a ∧
    Dispatcher.default.merge a = some a := by
  refine ⟨?_, ?_, ?_⟩
  · intro ab bc hab hbc
    rw [merge_of_wf ha hb, Option.some.injEq] at hab
    rw [merge_of_wf hb hc, Option.some.injEq] at hbc
    subst hab
    subst hbc
    rw [merge_of_wf (wellFormed_merge ha hb (merge_of_wf ha hb)) hc,
      merge_of_wf ha (wellFormed_merge hb hc (merge_of_wf hb hc))]
    apply congrArg some
    apply dispatcher_eq_of
    · simp only [mk_locals]
      exact List.append_assoc _ _ _
    · intro k
      simp only [mk_stages]
      obtain ⟨ha1, ha2, ha3, ha4⟩ := ha
      obtain ⟨hb1, hb2, hb3, hb4⟩ := hb
      cases k with
      | Begin =>
        obtain ⟨va, hva⟩ := Option.isSome_iff_exists.mp ha1
        obtain ⟨vb, hvb⟩ := Option.isSome_iff_exists.mp hb1
        rw [hva, hvb]
        simp [List.append_assoc]
      | Logic =>
        obtain ⟨va, hva⟩ := Option.isSome_iff_exists.mp ha2
        obtain ⟨vb, hvb⟩ := Option.isSome_iff_exists.mp hb2
        rw [hva, hvb]
        simp [List.append_assoc]
      | Render =>
        obtain ⟨va, hva⟩ := Option.isSome_iff_exists.mp ha3
        obtain ⟨vb, hvb⟩ := Option.isSome_iff_exists.mp hb3
        rw [hva, hvb]
        simp [List.append_assoc]
      | ThreadLocal =>
        rw [ha4]
        rfl
  · rw [merge_of_wf ha default_wellFormed]
    apply congrArg some
    apply dispatcher_eq_of
    · simp only [mk_locals]
      exact List.append_nil _
    · intro k
      simp only [mk_stages]
      have hgd : (Dispatcher.default.stages k).getD [] = [] := by cases k <;> rfl
      rw [hgd]
      cases a.stages k <;> simp
  · rw [merge_of_wf default_wellFormed ha]
    apply congrArg some
    apply dispatcher_eq_of
    · rfl
    · intro k
      simp only [mk_stages]
      obtain ⟨ha1, ha2, ha3, ha4⟩ := ha
      cases k with
      | Begin =>
        obtain ⟨v, hv⟩ := Option.isSome_iff_exists.mp ha1
        rw [hv]
        rfl
      | Logic =>
        obtain ⟨v, hv⟩ := Option.isSome_iff_exists.mp ha2
        rw [hv]
        rfl
      | Render =>
        obtain ⟨v, hv⟩ := Option.isSome_iff_exists.mp ha3
        rw [hv]
        rfl
      | ThreadLocal =>
        rw [ha4]
        rfl

theorem merge_assoc_identity_witness :
    sampleA.wellFormed ∧ sampleB.wellFormed ∧ sampleC.wellFormed ∧
    sampleA.merge Dispatcher.default = some sampleA ∧
    Dispatcher.default.merge sampleA = some sampleA :=
  ⟨⟨rfl, rfl, rfl, rfl⟩, ⟨rfl, rfl, rfl, rfl⟩, ⟨rfl, rfl, rfl, rfl⟩,
   (merge_assoc_identity sampleA sampleB sampleC ⟨rfl, rfl, rfl, rfl⟩ ⟨rfl, rfl, rfl, rfl⟩
      ⟨rfl, rfl, rfl, rfl⟩).2.1,
   (merge_assoc_identity sampleA sampleB sampleC ⟨rfl, rfl, rfl, rfl⟩ ⟨rfl, rfl, rfl, rfl⟩
      ⟨rfl, rfl, rfl, rfl⟩).2.2⟩

/-- C6: `run(ThreadLocal, world)` executes every thread-local task exactly
once, sequentially in registration order (the trace is the thread-local list
in order), and its result depends only on the thread-local sequence, never on
the parallel stage buckets. -/
theorem run_thread_local_order (d : Dispatcher) (w : World) :
    d.run Stage.ThreadLocal w = some (d.thread_locals.map Event.loc) ∧
    (∀ d2 : Dispatcher, d2.thread_locals = d.thread_locals →
      d2.run Stage.ThreadLocal w = d.run Stage.ThreadLocal w) := by
  refine ⟨rfl, ?_⟩
  intro d2 h
  show some (d2.thread_locals.map Event.loc) = some (d.thread_locals.map Event.loc)
  rw [h]

theorem run_thread_local_order_witness :
    sampleA.run Stage.ThreadLocal (World.mk false) = some [Event.loc 1] ∧
    sampleA2.thread_locals = sampleA.thread_locals ∧
    sampleA2.run Stage.ThreadLocal (World.mk false) =
      sampleA.run Stage.ThreadLocal (World.mk false) :=
  ⟨(run_thread_local_order sampleA (World.mk false)).1, rfl,
   (run_thread_local_order sampleA (World.mk false)).2 sampleA2 rfl⟩

/-- C7: for a parallel stage `s`, `run(s, world)` hands exactly the tasks of
the bucket for `s` to the external executor: the trace is that bucket, in
order, tagged as parallel tasks, with no thread-local task and nothing from
any other bucket. -/
theorem run_parallel_stage_exact (d : Dispatcher) (s : Stage) (w : World)
    (hs : s ≠ Stage.ThreadLocal) (v : List Nat) (hv : d.stages s = some v)
    (hp : w.hasThreadPool = true) :
    d.run s w = some (v.map Event.par) := by
  cases s with
  | ThreadLocal => exact absurd rfl hs
  | Begin => simp [Dispatcher.run, hv, hp]
  | Logic => simp [Dispatcher.run, hv, hp]
  | Render => simp [Dispatcher.run, hv, hp]

theorem run_parallel_stage_exact_witness :
    sampleA.stages Stage.Begin = some [10] ∧
    sampleA.run Stage.Begin (World.mk true) = some [Event.par 10] :=
  ⟨rfl, run_parallel_stage_exact sampleA Stage.Begin (World.mk true) (by decide) [10] rfl rfl⟩

/-- C8: `run` on a parallel stage with the thread-pool resource absent from
the world is the panic outcome `none` (the model's abrupt fault; `run` has no
error-return channel at all, mirroring the source's `() `return type). -/
theorem run_missing_pool_fault (d : Dispatcher) (s : Stage) (w : World)
    (hs : s ≠ Stage.ThreadLocal) (hd : d.wellFormed) (hp : w.hasThreadPool = false) :
    d.run s w = none :=
  run_parallel_none d s w hs hd hp

theorem run_missing_pool_fault_witness :
    sampleA.run Stage.Logic (World.mk false) = none :=
  run_missing_pool_fault sampleA Stage.Logic (World.mk false) (by decide)
    ⟨rfl, rfl, rfl, rfl⟩ rfl

/-- C9: every dispatcher produced by the public interface (`default`, a
successful `build`, or a successful `merge` of well-formed operands) has
exactly the three parallel keys Begin, Logic, Render in its stages map and
never the ThreadLocal key. -/
theorem dispatcher_stage_keys_invariant :
    Dispatcher.default.wellFormed ∧
    (∀ (n : Nat) (b : DispatcherBuilder) (w : World) (d : Dispatcher),
      DispatcherBuilder.build n b w = Except.ok d → d.wellFormed) ∧
    (∀ d o m : Dispatcher, d.wellFormed → o.wellFormed → d.merge o = some m →
      m.wellFormed) :=
  ⟨default_wellFormed, fun n b w d h => build_wf n b w d h,
   fun _ _ _ hd ho hm => wellFormed_merge hd ho hm⟩

theorem dispatcher_stage_keys_invariant_witness :
    DispatcherBuilder.build 1 DispatcherBuilder.default (World.mk true) =
      Except.ok Dispatcher.default ∧
    Dispatcher.default.wellFormed :=
  ⟨rfl, dispatcher_stage_keys_invariant.2.1 1 DispatcherBuilder.default (World.mk true)
    Dispatcher.default rfl⟩

/-- C10: `run(ThreadLocal, world)` never performs the thread-pool lookup: it
succeeds with the full thread-local trace even when the pool resource is
absent, while `run` on any parallel stage faults without the resource. -/
theorem run_thread_local_skips_pool (d : Dispatcher) (w : World)
    (hp : w.hasThreadPool = false) :
    d.run Stage.ThreadLocal w = some (d.thread_locals.map Event.loc) ∧
    (∀ s, s ≠ Stage.ThreadLocal → d.wellFormed → d.run s w = none) :=
  ⟨rfl, fun s hs hd => run_parallel_none d s w hs hd hp⟩

theorem run_thread_local_skips_pool_witness :
    (World.mk false).hasThreadPool = false ∧
    sampleA.run Stage.ThreadLocal (World.mk false) = some [Event.loc 1] ∧
    sampleA.run Stage.Render (World.mk false) = none :=
  ⟨rfl, (run_thread_local_skips_pool sampleA (World.mk false) rfl).1,
   (run_thread_local_skips_pool sampleA (World.mk false) rfl).2 Stage.Render (by decide)
     ⟨rfl, rfl, rfl, rfl⟩⟩

end AmethystLegion
